import Mathlib

/-!
Verification of the finit bootstrap orchestration core: a shallow
embedding, in Lean, of the configuration parser (`src/conf.c`) and the
bootstrap sequencer (`src/src/finit.c`), together with theorems settling
the behavioural claims about them.

Strings are modelled as `List Char` (the C code works on NUL-terminated
`char` buffers; the end of the list plays the role of the terminator).
Machine integers that stay small are modelled as `Nat`/`Int`.
-/

set_option maxHeartbeats 1000000

namespace Finit

/-! ## Runlevel mask codec (`src/conf.c`, `parse_runlevels`, lines 57-91) -/

/-- `SETBIT(x,b)`: `x |= _BIT(b)` from libite, on a C `int` modelled as `Nat`. -/
def SETBIT (m : Nat) (b : Nat) : Nat := m ||| (1 <<< b)

/-- `CLRBIT(x,b)`: `x &= ~_BIT(b)` from libite; the complement is taken on the
32-bit machine word, so it is `0xFFFFFFFF ^^^ (1 <<< b)` here. -/
def CLRBIT (m : Nat) (b : Nat) : Nat := m &&& (0xFFFFFFFF ^^^ (1 <<< b))

/-- The set-or-clear step of `parse_runlevels`: `if (not) CLRBIT(bitmask, level);
else SETBIT(bitmask, level);` (conf.c lines 84-87). -/
def applyLevel (neg : Bool) (m : Nat) (l : Nat) : Nat :=
  if neg then CLRBIT m l else SETBIT m l

/-- The level value a scanned character denotes: `'s'`/`'S'` are first mapped
to `'0'` (conf.c lines 77-78), then `level = lvl - '0'` (line 80), which on
C `char`/`int` arithmetic may be negative, hence `Int`. -/
def charLevel (lvl : Char) : Int :=
  ((if lvl = 's' ∨ lvl = 'S' then '0' else lvl).toNat : Int) - 48

/-- The scanning loop of `parse_runlevels` (conf.c lines 65-88).  The C loop
reads `runlevels[i++]` starting at `i = 1` and breaks on `']'` or the NUL
terminator; here the scanned characters are a `List Char`, with the end of
the list playing the role of NUL.  `neg` is the C local `not`, `bitmask`
the accumulated mask; characters whose level is outside `0..9` are skipped
(`continue`, lines 81-82). -/
def parseRunlevelsGo : Bool → Nat → List Char → Nat
  | _, bitmask, [] => bitmask
  | neg, bitmask, lvl :: rest =>
    if lvl = ']' ∨ lvl.toNat = 0 then bitmask
    else if lvl = '!' then parseRunlevelsGo true 0x3FE rest
    else if charLevel lvl > 9 ∨ charLevel lvl < 0 then parseRunlevelsGo neg bitmask rest
    else parseRunlevelsGo neg (applyLevel neg bitmask (charLevel lvl).toNat) rest

/-- `parse_runlevels` (conf.c lines 58-91): a NULL argument defaults to
`"[234]"`; the scan starts at index 1, i.e. the first character (the
opening bracket) is never examined. -/
def parse_runlevels (runlevels : Option (List Char)) : Nat :=
  parseRunlevelsGo false 0 ((runlevels.getD (("[234]").toList)).drop 1)

/-! Bound lemmas for the mask invariant. -/

lemma SETBIT_lt (m b : Nat) (hm : m < 1024) (hb : b ≤ 9) : SETBIT m b < 1024 := by
  have h2 : (1 <<< b) < 2 ^ 10 := by
    rw [Nat.shiftLeft_eq, one_mul]
    exact lt_of_le_of_lt (Nat.pow_le_pow_right (by norm_num) hb) (by norm_num)
  have := Nat.or_lt_two_pow (n := 10) (by simpa using hm) h2
  simpa [SETBIT] using this

lemma CLRBIT_lt (m b : Nat) (hm : m < 1024) : CLRBIT m b < 1024 :=
  lt_of_le_of_lt Nat.and_le_left hm

lemma applyLevel_lt (neg : Bool) (m b : Nat) (hm : m < 1024) (hb : b ≤ 9) :
    applyLevel neg m b < 1024 := by
  cases neg <;> simp [applyLevel] <;>
    [exact SETBIT_lt m b hm hb; exact CLRBIT_lt m b hm]

lemma parseRunlevelsGo_lt (cs : List Char) : ∀ (neg : Bool) (m : Nat),
    m < 1024 → parseRunlevelsGo neg m cs < 1024 := by
  induction cs with
  | nil => intro neg m hm; simpa [parseRunlevelsGo] using hm
  | cons c rest ih =>
    intro neg m hm
    simp only [parseRunlevelsGo]
    split
    · exact hm
    · split
      · exact ih true 0x3FE (by norm_num)
      · split
        · exact ih neg m hm
        · rename_i hnot
          push_neg at hnot
          refine ih neg _ (applyLevel_lt neg m (charLevel c).toNat hm ?_)
          have h9 : charLevel c ≤ 9 := hnot.1
          have h0 : 0 ≤ charLevel c := hnot.2
          omega

/-- Claim C5: `parse_runlevels` applied to `"[!06]"` produces exactly the mask
with bits {1,2,3,4,5,7,8,9} set and bits {0,6} clear, and applied to `"[!]"`
exactly the mask with bits 1 through 9 set and bit 0 clear (the equalities
to explicit sums of powers of two state the masks bit-exactly). -/
theorem C5_negated_mask_examples :
    parse_runlevels (some (("[!06]").toList)) =
      2 ^ 1 + 2 ^ 2 + 2 ^ 3 + 2 ^ 4 + 2 ^ 5 + 2 ^ 7 + 2 ^ 8 + 2 ^ 9 ∧
    parse_runlevels (some (("[!]").toList)) =
      2 ^ 1 + 2 ^ 2 + 2 ^ 3 + 2 ^ 4 + 2 ^ 5 + 2 ^ 6 + 2 ^ 7 + 2 ^ 8 + 2 ^ 9 := by
  constructor <;> rfl

/-- Claim C10: every `'!'` encountered by the runlevel scan resets the
accumulated mask to `0x3FE` and switches the remainder of the scan into
clearing mode, discarding whatever was accumulated before it; in
particular `"[!2!3]"` parses to the same mask as `"[!3]"`. -/
theorem C10_negation_resets_mask :
    (∀ (neg : Bool) (m : Nat) (rest : List Char),
      parseRunlevelsGo neg m ('!' :: rest) = parseRunlevelsGo true 0x3FE rest) ∧
    parse_runlevels (some (("[!2!3]").toList)) = parse_runlevels (some (("[!3]").toList)) := by
  refine ⟨fun neg m rest => ?_, rfl⟩
  simp [parseRunlevelsGo]

/-- Claim C8: the runlevel mask parser is total and its result always fits in
`0..1023`; digit characters set or clear (under negation) the corresponding
bit, `'s'`/`'S'` act as digit 0, every other character is ignored, and the
scan stops at `']'` or at the end of the input (the NUL terminator) — there
is no error path.  Termination is inherent: `parseRunlevelsGo` is a total
structural recursion on its input list. -/
theorem C8_mask_parser_invariants :
    (∀ s, parse_runlevels s ≤ 1023) ∧
    (∀ (neg : Bool) (m : Nat), parseRunlevelsGo neg m [] = m) ∧
    (∀ (neg : Bool) (m : Nat) (rest : List Char), parseRunlevelsGo neg m (']' :: rest) = m) ∧
    (∀ (neg : Bool) (m : Nat) (rest : List Char),
      parseRunlevelsGo neg m ('s' :: rest) = parseRunlevelsGo neg (applyLevel neg m 0) rest) ∧
    (∀ (neg : Bool) (m : Nat) (rest : List Char),
      parseRunlevelsGo neg m ('S' :: rest) = parseRunlevelsGo neg (applyLevel neg m 0) rest) ∧
    (∀ (neg : Bool) (m : Nat) (rest : List Char) (c : Char),
      48 ≤ c.toNat → c.toNat ≤ 57 →
      parseRunlevelsGo neg m (c :: rest) =
        parseRunlevelsGo neg (applyLevel neg m (c.toNat - 48)) rest) ∧
    (∀ (neg : Bool) (m : Nat) (rest : List Char) (c : Char),
      c ≠ ']' → c.toNat ≠ 0 → c ≠ '!' → c ≠ 's' → c ≠ 'S' →
      (c.toNat < 48 ∨ 57 < c.toNat) →
      parseRunlevelsGo neg m (c :: rest) = parseRunlevelsGo neg m rest) := by
  have e1 : (']').toNat = 93 := by decide
  have e2 : ('!').toNat = 33 := by decide
  have e3 : ('s').toNat = 115 := by decide
  have e4 : ('S').toNat = 83 := by decide
  refine ⟨?_, ?_, ?_, ?_, ?_, ?_, ?_⟩
  · intro s
    have h := parseRunlevelsGo_lt ((s.getD (("[234]").toList)).drop 1) false 0 (by norm_num)
    unfold parse_runlevels
    omega
  · intro neg m; rfl
  · intro neg m rest; simp [parseRunlevelsGo]
  · intro neg m rest; simp [parseRunlevelsGo, charLevel]
  · intro neg m rest; simp [parseRunlevelsGo, charLevel]
  · intro neg m rest c h48 h57
    have h1 : ¬(c = ']' ∨ c.toNat = 0) := by
      rintro (rfl | h0)
      · rw [e1] at h48 h57; omega
      · omega
    have h2 : c ≠ '!' := by intro h; subst h; rw [e2] at h48; omega
    have h3 : c ≠ 's' := by intro h; subst h; rw [e3] at h57; omega
    have h4 : c ≠ 'S' := by intro h; subst h; rw [e4] at h57; omega
    have hcl : charLevel c = (c.toNat : Int) - 48 := by
      simp [charLevel, h3, h4]
    have h5 : ¬(charLevel c > 9 ∨ charLevel c < 0) := by
      rw [hcl]; omega
    have h6 : (charLevel c).toNat = c.toNat - 48 := by
      rw [hcl]; omega
    rw [parseRunlevelsGo, if_neg h1, if_neg h2, if_neg h5, h6]
  · intro neg m rest c hr h0 hbang hs hS hrange
    have h1 : ¬(c = ']' ∨ c.toNat = 0) := by
      rintro (rfl | hh)
      · exact hr rfl
      · exact h0 hh
    have hcl : charLevel c = (c.toNat : Int) - 48 := by
      simp [charLevel, hs, hS]
    have h5 : charLevel c > 9 ∨ charLevel c < 0 := by
      rw [hcl]; omega
    rw [parseRunlevelsGo, if_neg h1, if_neg hbang, if_pos h5]

/-- Closed-form witness for `C8_mask_parser_invariants`, instantiating each
hypothesis-bearing component at concrete inputs. -/
theorem C8_mask_parser_invariants_witness :
    parse_runlevels (some (("[x239]").toList)) ≤ 1023 ∧
    parseRunlevelsGo false 5 [] = 5 ∧
    parseRunlevelsGo false 5 (']' :: ('4') :: []) = 5 ∧
    parseRunlevelsGo false 0 (('s') :: []) = parseRunlevelsGo false (applyLevel false 0 0) [] ∧
    parseRunlevelsGo true 7 (('S') :: []) = parseRunlevelsGo true (applyLevel true 7 0) [] ∧
    parseRunlevelsGo false 0 (('3') :: []) =
      parseRunlevelsGo false (applyLevel false 0 (('3').toNat - 48)) [] ∧
    parseRunlevelsGo false 9 (('x') :: []) = parseRunlevelsGo false 9 [] := by
  refine ⟨C8_mask_parser_invariants.1 _,
    C8_mask_parser_invariants.2.1 _ _,
    C8_mask_parser_invariants.2.2.1 _ _ _,
    C8_mask_parser_invariants.2.2.2.1 _ _ _,
    C8_mask_parser_invariants.2.2.2.2.1 _ _ _,
    C8_mask_parser_invariants.2.2.2.2.2.1 _ _ _ _ (by decide) (by decide),
    C8_mask_parser_invariants.2.2.2.2.2.2 _ _ _ _ (by decide) (by decide) (by decide)
      (by decide) (by decide) (by decide)⟩

/-! ## Line sanitizer and directive dispatcher (`src/conf.c`) -/

/-- C `isblank` in the C locale: space or horizontal tab. -/
def isblank (c : Char) : Bool := decide (c = ' ' ∨ c = '\t')

/-- `strip_line` (conf.c lines 40-55): skip leading blanks, then truncate at
the first `'#'`; the C scan also stops at the NUL terminator. -/
def strip_line (line : List Char) : List Char :=
  (line.dropWhile isblank).takeWhile (fun c => decide (c.toNat ≠ 0 ∧ c ≠ '#'))

/-- ASCII `tolower`, as applied by `strncasecmp`. -/
def lcase (c : Char) : Char :=
  if 'A' ≤ c ∧ c ≤ 'Z' then Char.ofNat (c.toNat + 32) else c

/-- `MATCH_CMD(l, c, x)` (conf.c lines 34-35): `!strncasecmp(l, c, strlen(c))`
succeeds iff `c` is a case-insensitive prefix of `l`; on success the payload
`x` is `l` advanced past the keyword. -/
def matchCmd (l : List Char) (c : List Char) : Option (List Char) :=
  match c, l with
  | [], l => some l
  | _ :: _, [] => none
  | b :: c, a :: l => if lcase a = lcase b then matchCmd l c else none

/-- The keyword literals of `parse_static` and `parse_dynamic`, in source
order (written as character lists so that proofs can peel them off
generically; e.g. `kwCheck` is the C literal `"check "`). -/
def kwCheck : List Char := ['c', 'h', 'e', 'c', 'k', ' ']

def kwUser : List Char := ['u', 's', 'e', 'r', ' ']

def kwHost : List Char := ['h', 'o', 's', 't', ' ']

def kwModule : List Char := ['m', 'o', 'd', 'u', 'l', 'e', ' ']

def kwMknod : List Char := ['m', 'k', 'n', 'o', 'd', ' ']

def kwNetwork : List Char := ['n', 'e', 't', 'w', 'o', 'r', 'k', ' ']

def kwRunparts : List Char := ['r', 'u', 'n', 'p', 'a', 'r', 't', 's', ' ']

def kwInclude : List Char := ['i', 'n', 'c', 'l', 'u', 'd', 'e', ' ']

def kwStartx : List Char := ['s', 't', 'a', 'r', 't', 'x', ' ']

def kwShutdown : List Char := ['s', 'h', 'u', 't', 'd', 'o', 'w', 'n', ' ']

def kwRunlevel : List Char := ['r', 'u', 'n', 'l', 'e', 'v', 'e', 'l', ' ']

def kwConsole : List Char := ['c', 'o', 'n', 's', 'o', 'l', 'e', ' ']

def kwTty : List Char := ['t', 't', 'y', ' ']

def kwHash : List Char := ['#']

def kwService : List Char := ['s', 'e', 'r', 'v', 'i', 'c', 'e', ' ']

def kwTask : List Char := ['t', 'a', 's', 'k', ' ']

def kwRun : List Char := ['r', 'u', 'n', ' ']

def kwInetd : List Char := ['i', 'n', 'e', 't', 'd', ' ']

/-- The static directives of `parse_static` (conf.c lines 93-211).
`include` is a Lean keyword, hence the constructor name `inc`; `moduleK`
stands for the `module` directive. -/
inductive SKind
  | check | user | host | moduleK | mknod | network | runparts | inc
  | startx | shutdown | runlevel | console | tty
  deriving DecidableEq

/-- `SVC_TYPE_*` as used by `svc_register` calls in conf.c. -/
inductive SvcType
  | service | task | run | inetd
  deriving DecidableEq

/-- Static classification: the ordered `MATCH_CMD` chain of `parse_static`
(conf.c lines 100-207), returning the matched directive together with the
raw payload `x` (the line advanced past the keyword, before any
`strip_line`). -/
def classifyStatic (line : List Char) : Option (SKind × List Char) :=
  ((matchCmd line kwCheck).map (fun x => (SKind.check, x))) <|>
  ((matchCmd line kwUser).map (fun x => (SKind.user, x))) <|>
  ((matchCmd line kwHost).map (fun x => (SKind.host, x))) <|>
  ((matchCmd line kwModule).map (fun x => (SKind.moduleK, x))) <|>
  ((matchCmd line kwMknod).map (fun x => (SKind.mknod, x))) <|>
  ((matchCmd line kwNetwork).map (fun x => (SKind.network, x))) <|>
  ((matchCmd line kwRunparts).map (fun x => (SKind.runparts, x))) <|>
  ((matchCmd line kwInclude).map (fun x => (SKind.inc, x))) <|>
  ((matchCmd line kwStartx).map (fun x => (SKind.startx, x))) <|>
  ((matchCmd line kwShutdown).map (fun x => (SKind.shutdown, x))) <|>
  ((matchCmd line kwRunlevel).map (fun x => (SKind.runlevel, x))) <|>
  ((matchCmd line kwConsole).map (fun x => (SKind.console, x))) <|>
  ((matchCmd line kwTty).map (fun x => (SKind.tty, x)))

/-- Dynamic classification: the `MATCH_CMD` chain of `parse_dynamic`
(conf.c lines 213-251): a leading `#` short-circuits as a comment, then
`service`/`task`/`run`/`inetd` are tried in order; the payload is the raw
remainder `x` (no `strip_line`). -/
def classifyDynamic (line : List Char) : Option (SvcType × List Char) :=
  if (matchCmd line kwHash).isSome then none
  else
    ((matchCmd line kwService).map (fun x => (SvcType.service, x))) <|>
    ((matchCmd line kwTask).map (fun x => (SvcType.task, x))) <|>
    ((matchCmd line kwRun).map (fun x => (SvcType.run, x))) <|>
    ((matchCmd line kwInetd).map (fun x => (SvcType.inetd, x)))

/-! ## Config loader state (`src/conf.c`, globals from `src/src/finit.c`) -/

/-- A registered service: the arguments of an `svc_register(type, cmdline,
mtime, user)` call (the supervision engine itself is external). -/
structure Svc where
  ty : SvcType
  cmdline : List Char
  mtime : Nat
  owner : Option (List Char)
  deriving DecidableEq

/-- The process-wide configuration state mutated by the parser: the globals
`username`, `hostname`, `network`, `runparts`, `sdown`, `console`,
`cfglevel` (finit.c lines 57-68 and conf.c), plus the observable effects on
the external collaborators: registered TTYs (`tty_register`, in
registration order), registered services (`svc_register`, most recent
first), and the commands handed to `run_interactive` by the
`check`/`module`/`mknod` directives (most recent first). -/
structure ConfSt where
  username : Option (List Char) := none
  hostname : Option (List Char) := none
  network : Option (List Char) := none
  runparts : Option (List Char) := none
  sdown : Option (List Char) := none
  console : Option (List Char) := none
  cfglevel : Int := 2
  ttys : List (List Char) := []
  svcs : List Svc := []
  cmds : List (List Char) := []
  deriving DecidableEq

/-- The file system visible to the parser: an association list from path to
the file's (already `chomp`ed) lines.  A missing path is a file that
`fopen`/`fexist` fails on. -/
abbrev FS := List (List Char × List (List Char))

/-- libite `fexist`: the path can be stat'ed. -/
def fexist (fs : FS) (p : List Char) : Bool := (fs.lookup p).isSome

/-- `FINIT_RCSD` from finit.h (the header is not among the sources shown).
Modelled from the spec: the fragment/include directory defaults to
`/etc/finit.d`. -/
def FINIT_RCSD : List Char := ("/etc/finit.d").toList

/-- `char *rcsd = FINIT_RCSD;` (finit.c line 67).  `rcsd` is never
reassigned anywhere in the sources shown; in particular the `runparts`
directive writes the separate global `runparts`, not `rcsd`. -/
def rcsd : List Char := FINIT_RCSD

/-- `RUNLEVEL` from finit.h (the header is not among the sources shown).
Modelled from the spec: the fallback configured runlevel is 2. -/
def RUNLEVEL : Int := 2

/-- Decimal reading underlying BSD `strtonum` (an external library function;
modelled from its documented behavior): leading C whitespace is skipped by
the underlying `strtoll`, then an optional sign and at least one digit must
consume the entire remaining string; anything else is a conversion error. -/
def parseDec (s : List Char) : Option Int :=
  match s.dropWhile (fun c => decide (c.toNat = 32 ∨ (9 ≤ c.toNat ∧ c.toNat ≤ 13))) with
  | '-' :: ds =>
    if !ds.isEmpty && ds.all Char.isDigit then
      some (-(ds.foldl (fun a c => a * 10 + ((c.toNat : Int) - 48)) 0))
    else none
  | '+' :: ds =>
    if !ds.isEmpty && ds.all Char.isDigit then
      some (ds.foldl (fun a c => a * 10 + ((c.toNat : Int) - 48)) 0)
    else none
  | ds =>
    if !ds.isEmpty && ds.all Char.isDigit then
      some (ds.foldl (fun a c => a * 10 + ((c.toNat : Int) - 48)) 0)
    else none

/-- BSD `strtonum(numstr, minval, maxval, &errstr)`: the parsed value if the
string is a clean number within `[lo, hi]`, otherwise an error (`none`). -/
def strtonum (s : List Char) (lo hi : Int) : Option Int :=
  match parseDec s with
  | some v => if lo ≤ v ∧ v ≤ hi then some v else none
  | none => none

/-- The final guard of the `runlevel` handler (conf.c lines 194-195):
`if (cfglevel < 1 || cfglevel > 9 || cfglevel == 6) cfglevel = 2;`. -/
def clampLevel (c : Int) : Int :=
  if c < 1 ∨ c > 9 ∨ c = 6 then 2 else c

/-- The `runlevel` directive handler's value computation (conf.c lines
187-197): `cfglevel = strtonum(token, 1, 9, &err); if (err) cfglevel =
RUNLEVEL;` followed by the `clampLevel` guard. -/
def runlevelEffect (token : List Char) : Int :=
  clampLevel ((strtonum token 1 9).getD RUNLEVEL)

/-- `parse_dynamic` (conf.c lines 213-251) as a state transformer: a matched
dynamic directive registers a service with the raw payload and the given
mtime (`svc_register(type, x, mtime, NULL)`); unmatched lines do nothing. -/
def parse_dynamic (st : ConfSt) (line : List Char) (mtime : Nat) : ConfSt :=
  match classifyDynamic line with
  | some (ty, x) => {st with svcs := ⟨ty, x, mtime, none⟩ :: st.svcs}
  | none => st

/-- `parse_static` (conf.c lines 93-211) as a state transformer.  `recur` is
the recursive `parse_conf` call made by the `include` directive (conf.c
line 168); every handler sanitizes its payload with `strip_line` before
using it.  The `include` resolution (lines 157-170) first tries the payload
path itself, then `rcsd` + `/` + payload, and silently does nothing when
neither exists. -/
def parse_static (recur : ConfSt → List Char → ConfSt) (fs : FS) (st : ConfSt)
    (line : List Char) : ConfSt :=
  match classifyStatic line with
  | some (.check, x) =>
    {st with cmds := (("/sbin/fsck -C -a ").toList ++ strip_line x) :: st.cmds}
  | some (.user, x) => {st with username := some (strip_line x)}
  | some (.host, x) => {st with hostname := some (strip_line x)}
  | some (.moduleK, x) =>
    {st with cmds := (("/sbin/modprobe ").toList ++ strip_line x) :: st.cmds}
  | some (.mknod, x) =>
    {st with cmds := (("/bin/mknod ").toList ++ strip_line x) :: st.cmds}
  | some (.network, x) => {st with network := some (strip_line x)}
  | some (.runparts, x) => {st with runparts := some (strip_line x)}
  | some (.inc, x) =>
    if fexist fs (strip_line x) then recur st (strip_line x)
    else if fexist fs (rcsd ++ ('/') :: strip_line x) then
      recur st (rcsd ++ ('/') :: strip_line x)
    else st
  | some (.startx, x) =>
    {st with svcs := ⟨.service, strip_line x, 0, st.username⟩ :: st.svcs}
  | some (.shutdown, x) => {st with sdown := some (strip_line x)}
  | some (.runlevel, x) => {st with cfglevel := runlevelEffect (strip_line x)}
  | some (.console, x) => {st with console := some (strip_line x)}
  | some (.tty, x) => {st with ttys := st.ttys ++ [strip_line x]}
  | none => st

/-- `parse_conf` (conf.c lines 279-323): open the file (an unopenable file
leaves the state untouched and parsing returns), then feed every line first
to `parse_static` and then unconditionally to `parse_dynamic` with mtime 0.
The C recursion through `include` is unbounded (a cyclic include recurses
forever); the embedding spends one unit of `fuel` per file opened. -/
def parse_conf : Nat → FS → ConfSt → List Char → ConfSt
  | 0, _, st, _ => st
  | fuel + 1, fs, st, file =>
    match fs.lookup file with
    | none => st
    | some lines =>
      lines.foldl
        (fun st line =>
          parse_dynamic (parse_static (fun st2 f2 => parse_conf fuel fs st2 f2) fs st line) line 0)
        st

/-- `parse_conf_dynamic` (conf.c lines 253-277): the dynamic-only line
pipeline used for fragments, carrying the fragment's mtime into every
descriptor. -/
def parse_conf_dynamic (fs : FS) (st : ConfSt) (file : List Char) (mtime : Nat) : ConfSt :=
  match fs.lookup file with
  | none => st
  | some lines => lines.foldl (fun st line => parse_dynamic st line mtime) st

/-! ## Claims C3 and C4: dispatch and the `runlevel` directive -/

lemma classifyStatic_tty (rest : List Char) :
    classifyStatic (kwTty ++ rest) = some (.tty, rest) := by
  simp [classifyStatic, matchCmd, kwTty, kwCheck, kwUser, kwHost, kwModule, kwMknod,
    kwNetwork, kwRunparts, kwInclude, kwStartx, kwShutdown, kwRunlevel, kwConsole, lcase]

lemma classifyStatic_runlevel (rest : List Char) :
    classifyStatic (kwRunlevel ++ rest) = some (.runlevel, rest) := by
  simp [classifyStatic, matchCmd, kwTty, kwCheck, kwUser, kwHost, kwModule, kwMknod,
    kwNetwork, kwRunparts, kwInclude, kwStartx, kwShutdown, kwRunlevel, kwConsole, lcase]

lemma classifyStatic_inc (rest : List Char) :
    classifyStatic (kwInclude ++ rest) = some (.inc, rest) := by
  simp [classifyStatic, matchCmd, kwTty, kwCheck, kwUser, kwHost, kwModule, kwMknod,
    kwNetwork, kwRunparts, kwInclude, kwStartx, kwShutdown, kwRunlevel, kwConsole, lcase]

lemma classifyDynamic_run (rest : List Char) :
    classifyDynamic (kwRun ++ rest) = some (.run, rest) := by
  simp [classifyDynamic, matchCmd, kwHash, kwService, kwTask, kwRun, kwInetd, lcase]

lemma classifyDynamic_inc_none (rest : List Char) :
    classifyDynamic (kwInclude ++ rest) = none := by
  simp [classifyDynamic, matchCmd, kwHash, kwService, kwTask, kwRun, kwInetd, kwInclude, lcase]

lemma strtonum_some_eq (s : List Char) (lo hi v : Int) (h : parseDec s = some v) :
    strtonum s lo hi = if lo ≤ v ∧ v ≤ hi then some v else none := by
  unfold strtonum; rw [h]

lemma strtonum_none_eq (s : List Char) (lo hi : Int) (h : parseDec s = none) :
    strtonum s lo hi = none := by
  unfold strtonum; rw [h]

/-- Claim C3, counterexample.  The claim says every line is sanitized
(leading whitespace dropped, trailing comment stripped) before directive
classification, so a line would classify like its sanitized form with a
sanitized payload.  In the code, classification runs on the raw line:
`" tty x"` classifies to no directive although its sanitized form `"tty x"`
is a `tty` directive, and the dynamic payload of `"run a #c"` keeps the
comment verbatim instead of the sanitized `"a "`. -/
theorem C3_counterexample :
    classifyStatic ((" tty x").toList) = none ∧
    classifyDynamic ((" tty x").toList) = none ∧
    strip_line ((" tty x").toList) = ("tty x").toList ∧
    classifyStatic (strip_line ((" tty x").toList)) = some (.tty, ("x").toList) ∧
    classifyDynamic (("run a #c").toList) = some (.run, ("a #c").toList) ∧
    strip_line (("a #c").toList) = ("a ").toList ∧
    ("a #c").toList ≠ ("a ").toList := by
  refine ⟨rfl, rfl, rfl, rfl, rfl, rfl, by decide⟩

/-- Claim C3 as amended: classification operates on the raw line — leading
whitespace is not skipped and comments are not stripped before keyword
matching, so an empty line or a line starting with a blank (in particular
whitespace followed by a comment) classifies to no directive under both
static and dynamic dispatch; after a static keyword matches, the handler
sanitizes only the payload with `strip_line` (leading whitespace trimmed,
truncated at `'#'`; trailing whitespace before a comment is kept), while
dynamic handlers receive the payload verbatim. -/
theorem C3_raw_line_classification :
    (∀ line : List Char, (line = [] ∨ ∃ c rest, line = c :: rest ∧ isblank c = true) →
      classifyStatic line = none ∧ classifyDynamic line = none) ∧
    (∀ rest : List Char, classifyStatic (kwTty ++ rest) = some (.tty, rest)) ∧
    (∀ (recur : ConfSt → List Char → ConfSt) (fs : FS) (st : ConfSt) (rest : List Char),
      parse_static recur fs st (kwTty ++ rest) = {st with ttys := st.ttys ++ [strip_line rest]}) ∧
    (∀ rest : List Char, classifyDynamic (kwRun ++ rest) = some (.run, rest)) ∧
    (∀ (st : ConfSt) (rest : List Char) (mtime : Nat),
      parse_dynamic st (kwRun ++ rest) mtime =
        {st with svcs := ⟨.run, rest, mtime, none⟩ :: st.svcs}) := by
  refine ⟨?_, classifyStatic_tty, ?_, classifyDynamic_run, ?_⟩
  · rintro line (rfl | ⟨c, rest, rfl, hc⟩)
    · exact ⟨rfl, rfl⟩
    · rcases of_decide_eq_true hc with rfl | rfl
      · exact ⟨rfl, rfl⟩
      · exact ⟨rfl, rfl⟩
  · intro recur fs st rest
    unfold parse_static
    rw [classifyStatic_tty]
  · intro st rest mtime
    unfold parse_dynamic
    rw [classifyDynamic_run]

/-- Closed-form witness for `C3_raw_line_classification`: the blank-led
component applied to the concrete line `" # comment"` and to the empty
line. -/
theorem C3_raw_line_classification_witness :
    (classifyStatic ((" # comment").toList) = none ∧
      classifyDynamic ((" # comment").toList) = none) ∧
    (classifyStatic (("").toList) = none ∧ classifyDynamic (("").toList) = none) := by
  refine ⟨C3_raw_line_classification.1 _ (Or.inr ⟨' ', ("# comment").toList, rfl, by decide⟩),
    C3_raw_line_classification.1 _ (Or.inl rfl)⟩

/-- Claim C4: the `runlevel` directive resolves its payload through
`strtonum(token, 1, 9)` with fallback `RUNLEVEL` and a final clamp: the
payloads `"6"`, `"0"`, `"10"` each resolve `cfglevel` to 2, `"4"` to 4,
and in general any numeric value outside 1–9, any unparsable payload, and
the value 6 all fall back to 2. -/
theorem C4_runlevel_fallback :
    (∀ (recur : ConfSt → List Char → ConfSt) (fs : FS) (st : ConfSt) (rest : List Char),
      parse_static recur fs st (kwRunlevel ++ rest) =
        {st with cfglevel := runlevelEffect (strip_line rest)}) ∧
    runlevelEffect (("6").toList) = 2 ∧
    runlevelEffect (("0").toList) = 2 ∧
    runlevelEffect (("10").toList) = 2 ∧
    runlevelEffect (("4").toList) = 4 ∧
    (∀ (tok : List Char) (v : Int), parseDec tok = some v → (v < 1 ∨ v > 9 ∨ v = 6) →
      runlevelEffect tok = 2) ∧
    (∀ tok : List Char, parseDec tok = none → runlevelEffect tok = 2) := by
  refine ⟨?_, rfl, rfl, rfl, rfl, ?_, ?_⟩
  · intro recur fs st rest
    unfold parse_static
    rw [classifyStatic_runlevel]
  · intro tok v hv hcase
    unfold runlevelEffect
    rw [strtonum_some_eq _ _ _ _ hv]
    rcases hcase with h | h | h
    · rw [if_neg (by omega)]; decide
    · rw [if_neg (by omega)]; decide
    · subst h; rw [if_pos (by norm_num)]; decide
  · intro tok hv
    unfold runlevelEffect
    rw [strtonum_none_eq _ _ _ hv]
    decide

/-- Closed-form witness for `C4_runlevel_fallback`: the general fallback
components applied at the numeric payload `"77"` and the unparsable
payload `"zz"`. -/
theorem C4_runlevel_fallback_witness :
    runlevelEffect (("77").toList) = 2 ∧ runlevelEffect (("zz").toList) = 2 := by
  refine ⟨C4_runlevel_fallback.2.2.2.2.2.1 (("77").toList) 77 rfl (by omega),
    C4_runlevel_fallback.2.2.2.2.2.2 (("zz").toList) rfl⟩

/-! ## Claim C6: `include` resolution -/

/-- The per-line step of `parse_conf`'s read loop (conf.c lines 310-318):
`parse_static(line); parse_dynamic(line, 0);`, with the `include` recursion
running at the remaining fuel. -/
def confLine (fuel : Nat) (fs : FS) (st : ConfSt) (line : List Char) : ConfSt :=
  parse_dynamic (parse_static (fun st2 f2 => parse_conf fuel fs st2 f2) fs st line) line 0

lemma parse_conf_eq_foldl (fuel : Nat) (fs : FS) (st : ConfSt) (file : List Char)
    (lines : List (List Char)) (h : fs.lookup file = some lines) :
    parse_conf (fuel + 1) fs st file = lines.foldl (confLine fuel fs) st := by
  simp only [parse_conf, confLine]
  rw [h]
  exact rfl

lemma confLine_include_noop (fuel : Nat) (fs : FS) (st : ConfSt) (rest : List Char)
    (h1 : fexist fs (strip_line rest) = false)
    (h2 : fexist fs (rcsd ++ ('/') :: strip_line rest) = false) :
    confLine fuel fs st (kwInclude ++ rest) = st := by
  unfold confLine parse_static
  rw [classifyStatic_inc]
  simp only [h1, h2, Bool.false_eq_true, if_false]
  unfold parse_dynamic
  rw [classifyDynamic_inc_none]

/-- Claim C6 as amended: an `include <path>` whose path is not directly
openable is retried under the fixed configuration directory `rcsd`
(`FINIT_RCSD`, default `/etc/finit.d`) — not under the directory set by
the `runparts` directive — and parsed recursively from wherever it is
found; when it exists in neither location the include is silently skipped:
the line is a no-op and the parsing of the enclosing file continues
exactly as if the line were absent. -/
theorem C6_include_resolution :
    (∀ (recur : ConfSt → List Char → ConfSt) (fs : FS) (st : ConfSt) (rest : List Char),
      (fexist fs (strip_line rest) = true →
        parse_static recur fs st (kwInclude ++ rest) = recur st (strip_line rest)) ∧
      (fexist fs (strip_line rest) = false →
        fexist fs (rcsd ++ ('/') :: strip_line rest) = true →
        parse_static recur fs st (kwInclude ++ rest) =
          recur st (rcsd ++ ('/') :: strip_line rest)) ∧
      (fexist fs (strip_line rest) = false →
        fexist fs (rcsd ++ ('/') :: strip_line rest) = false →
        parse_static recur fs st (kwInclude ++ rest) = st)) ∧
    (∀ (fuel : Nat) (fs : FS) (st : ConfSt) (file : List Char)
       (pre post : List (List Char)) (rest : List Char),
      fexist fs (strip_line rest) = false →
      fexist fs (rcsd ++ ('/') :: strip_line rest) = false →
      fs.lookup file = some (pre ++ (kwInclude ++ rest) :: post) →
      parse_conf (fuel + 1) fs st file = (pre ++ post).foldl (confLine fuel fs) st) := by
  constructor
  · intro recur fs st rest
    refine ⟨?_, ?_, ?_⟩
    · intro h1
      unfold parse_static
      rw [classifyStatic_inc]
      simp only [h1, if_true]
    · intro h1 h2
      unfold parse_static
      rw [classifyStatic_inc]
      simp only [h1, h2, Bool.false_eq_true, if_false, if_true]
    · intro h1 h2
      unfold parse_static
      rw [classifyStatic_inc]
      simp only [h1, h2, Bool.false_eq_true, if_false]
  · intro fuel fs st file pre post rest h1 h2 hlk
    rw [parse_conf_eq_foldl _ _ _ _ _ hlk, List.foldl_append, List.foldl_cons,
      confLine_include_noop _ _ _ _ h1 h2, List.foldl_append]

/-- A file system for the C6 counterexample: the root file includes
`foo.conf`, which exists neither directly nor under `rcsd`
(`/etc/finit.d`), but does exist under the directory `/custom` configured
by the `runparts` directive. -/
def c6fs : FS :=
  [((("/etc/finit.conf")).toList, [(("include foo.conf")).toList]),
   ((("/custom/foo.conf")).toList, [(("host inner")).toList])]

/-- The C6 state: `runparts` has been set to `/custom`. -/
def c6st : ConfSt := {runparts := some (("/custom").toList)}

/-- Claim C6, counterexample.  The claim says a non-openable include path is
retried as `<runparts-dir>/<path>` and parsed from there when that file
exists.  Concretely: with `runparts = /custom`, `include foo.conf` where
only `/custom/foo.conf` exists is NOT parsed — the code retries under the
fixed `rcsd` (`/etc/finit.d`) instead, finds nothing, and leaves the state
unchanged — whereas parsing `/custom/foo.conf` would have set the hostname,
so the claimed behavior is observably different from the code's. -/
theorem C6_counterexample :
    c6st.runparts = some (("/custom").toList) ∧
    fexist c6fs (("foo.conf").toList) = false ∧
    fexist c6fs ((("/custom")).toList ++ ('/') :: ("foo.conf").toList) = true ∧
    parse_conf 5 c6fs c6st (("/etc/finit.conf").toList) = c6st ∧
    (parse_conf 5 c6fs c6st (("/custom/foo.conf").toList)).hostname =
      some (("inner").toList) ∧
    c6st.hostname = none := by
  refine ⟨rfl, rfl, rfl, by decide, by decide, rfl⟩

/-- Witness file systems for `C6_include_resolution`. -/
def c6fsDirect : FS := [((("inc.conf")).toList, [(("host direct")).toList])]

def c6fsRcsd : FS := [((("/etc/finit.d/inc.conf")).toList, [(("host rcsd")).toList])]

def c6fsRoot : FS := [((("root.conf")).toList, [kwInclude ++ (("m.conf")).toList])]

/-- Closed-form witness for `C6_include_resolution`: each component applied
at concrete file systems exhibiting direct resolution, `rcsd` fallback,
silent skip, and continuation of the enclosing file. -/
theorem C6_include_resolution_witness :
    parse_static (fun st2 f2 => parse_conf 1 c6fsDirect st2 f2) c6fsDirect {}
      (kwInclude ++ (("inc.conf")).toList) =
      parse_conf 1 c6fsDirect {} (strip_line (("inc.conf")).toList) ∧
    parse_static (fun st2 f2 => parse_conf 1 c6fsRcsd st2 f2) c6fsRcsd {}
      (kwInclude ++ (("inc.conf")).toList) =
      parse_conf 1 c6fsRcsd {} (rcsd ++ ('/') :: strip_line (("inc.conf")).toList) ∧
    parse_static (fun st2 f2 => parse_conf 1 [] st2 f2) [] {}
      (kwInclude ++ (("inc.conf")).toList) = {} ∧
    parse_conf 1 c6fsRoot {} (("root.conf").toList) =
      (([] : List (List Char)) ++ []).foldl (confLine 0 c6fsRoot) {} := by
  refine ⟨(C6_include_resolution.1 _ c6fsDirect {} _).1 (by decide),
    (C6_include_resolution.1 _ c6fsRcsd {} _).2.1 (by decide) (by decide),
    (C6_include_resolution.1 _ [] {} _).2.2 (by decide) (by decide),
    C6_include_resolution.2 0 c6fsRoot {} (("root.conf").toList) [] [] (("m.conf").toList)
      (by decide) (by decide) rfl⟩

/-! ## Claim C9: `parse_finit_conf` always leaves a TTY registered -/

/-- `DEFUSER` from finit.h (header not in the sources shown); its value is
irrelevant to the claims. -/
def DEFUSER : List Char := ("root").toList

/-- `DEFHOST` from finit.h (header not in the sources shown); its value is
irrelevant to the claims. -/
def DEFHOST : List Char := ("noname").toList

/-- `FALLBACK_SHELL` from finit.h (header not in the sources shown).
Modelled from the spec: a built-in fallback shell. -/
def FALLBACK_SHELL : List Char := ("/bin/sh").toList

/-- The TTY fallback of `parse_finit_conf` (conf.c lines 375-382): if no
`tty` directive registered a TTY (`tty_num()` is zero), register the
configured console, or `FALLBACK_SHELL` when no console was configured.
`tty_register`/`tty_num` live in tty.c, which is not among the sources
shown; modelled from the spec: registering appends to the TTY registry and
`tty_num` is its size. -/
def ttyFallback (st : ConfSt) : ConfSt :=
  if st.ttys.length = 0 then
    {st with ttys := st.ttys ++ [st.console.getD FALLBACK_SHELL]}
  else st

/-- `parse_finit_conf` (conf.c lines 367-385): seed `username`/`hostname`
with their defaults, parse the root file (its result code is returned but
the TTY fallback runs regardless), then ensure a TTY. -/
def parse_finit_conf (fuel : Nat) (fs : FS) (st : ConfSt) (file : List Char) : ConfSt :=
  ttyFallback
    (parse_conf fuel fs {st with username := some DEFUSER, hostname := some DEFHOST} file)

/-- Claim C9: after the root configuration file is loaded at least one TTY
is always registered — for every file system (in particular one where the
root file cannot be opened), every fuel and every starting state; if
parsing registered no TTY, the fallback registered is the configured
console when one was set, and otherwise `FALLBACK_SHELL`. -/
theorem C9_tty_fallback :
    (∀ (fuel : Nat) (fs : FS) (st : ConfSt) (file : List Char),
      1 ≤ (parse_finit_conf fuel fs st file).ttys.length) ∧
    (∀ st : ConfSt, st.ttys = [] →
      (ttyFallback st).ttys = [st.console.getD FALLBACK_SHELL]) ∧
    (∀ st : ConfSt, 1 ≤ st.ttys.length → ttyFallback st = st) := by
  have hfb : ∀ st : ConfSt, 1 ≤ (ttyFallback st).ttys.length := by
    intro st
    unfold ttyFallback
    split
    · rename_i h
      simp [h]
    · rename_i h
      omega
  refine ⟨fun fuel fs st file => hfb _, ?_, ?_⟩
  · intro st h
    unfold ttyFallback
    rw [if_pos (by rw [h]; rfl), h]
    rfl
  · intro st h
    unfold ttyFallback
    rw [if_neg (by omega)]

/-- Closed-form witness for `C9_tty_fallback`: an empty file system (the
root file cannot even be opened) still yields a registered TTY, the
empty-registry fallback registers `FALLBACK_SHELL`, and a state with a TTY
is left alone. -/
theorem C9_tty_fallback_witness :
    1 ≤ (parse_finit_conf 1 [] {} (("/etc/finit.conf").toList)).ttys.length ∧
    (ttyFallback {}).ttys = [(({} : ConfSt)).console.getD FALLBACK_SHELL] ∧
    ttyFallback {ttys := [(("/dev/tty1")).toList]} = {ttys := [(("/dev/tty1")).toList]} := by
  refine ⟨C9_tty_fallback.1 1 [] {} _,
    C9_tty_fallback.2.1 {} rfl,
    C9_tty_fallback.2.2 {ttys := [(("/dev/tty1")).toList]} (by decide)⟩

/-! ## Claim C7: fragment directory scan (`parse_finit_d`, conf.c lines 325-365) -/

/-- A directory entry as seen by `parse_finit_d`: the name delivered by
`scandir` plus the `struct stat` facts the code consults — whether `stat`
succeeded, `S_ISDIR`, `S_ISEXEC` (libite: the owner-execute mode bit) and
`st_mtime`.  `isReg` records `S_ISREG`, which `struct stat` carries but
this code never consults; it is included so the spec's filter can be
compared against the code's. -/
structure DirEnt where
  name : List Char
  statOk : Bool
  isDir : Bool
  isExec : Bool
  isReg : Bool
  mtime : Nat
  deriving DecidableEq

/-- Byte-wise lexicographic comparison of C strings, `strcmp(a,b) <= 0`, the
order `alphasort` induces in the C locale. -/
def charListLe : List Char → List Char → Bool
  | [], _ => true
  | _ :: _, [] => false
  | a :: as, b :: bs =>
    if a.toNat < b.toNat then true
    else if b.toNat < a.toNat then false
    else charListLe as bs

/-- The `alphasort` order on directory entries: by name. -/
def entLe (a b : DirEnt) : Prop := charListLe a.name b.name = true

instance : DecidableRel entLe := fun a b => by unfold entLe; infer_instance

lemma charListLe_total : ∀ a b : List Char, charListLe a b = true ∨ charListLe b a = true := by
  intro a
  induction a with
  | nil => intro b; left; rfl
  | cons x xs ih =>
    intro b
    cases b with
    | nil => right; rfl
    | cons y ys =>
      by_cases h1 : x.toNat < y.toNat
      · left; simp [charListLe, h1]
      · by_cases h2 : y.toNat < x.toNat
        · right; simp [charListLe, h2]
        · rcases ih ys with h | h
          · left; simp [charListLe, h1, h2, h]
          · right; simp [charListLe, h1, h2, h]

lemma charListLe_trans : ∀ a b c : List Char,
    charListLe a b = true → charListLe b c = true → charListLe a c = true := by
  intro a
  induction a with
  | nil => intro b c _ _; rfl
  | cons x xs ih =>
    intro b c hab hbc
    cases b with
    | nil => simp [charListLe] at hab
    | cons y ys =>
      cases c with
      | nil => simp [charListLe] at hbc
      | cons z zs =>
        have hxy : x.toNat ≤ y.toNat := by
          by_contra hcon
          push_neg at hcon
          simp only [charListLe] at hab
          rw [if_neg (by omega : ¬ x.toNat < y.toNat), if_pos hcon] at hab
          exact absurd hab (by decide)
        have hyz : y.toNat ≤ z.toNat := by
          by_contra hcon
          push_neg at hcon
          simp only [charListLe] at hbc
          rw [if_neg (by omega : ¬ y.toNat < z.toNat), if_pos hcon] at hbc
          exact absurd hbc (by decide)
        by_cases hxz : x.toNat < z.toNat
        · simp [charListLe, hxz]
        · have hx : x.toNat = y.toNat := by omega
          have hy : y.toNat = z.toNat := by omega
          simp only [charListLe] at hab hbc ⊢
          rw [if_neg (by omega : ¬ x.toNat < y.toNat),
            if_neg (by omega : ¬ y.toNat < x.toNat)] at hab
          rw [if_neg (by omega : ¬ y.toNat < z.toNat),
            if_neg (by omega : ¬ z.toNat < y.toNat)] at hbc
          rw [if_neg (by omega : ¬ x.toNat < z.toNat),
            if_neg (by omega : ¬ z.toNat < x.toNat)]
          exact ih ys zs hab hbc

instance : IsTotal DirEnt entLe := ⟨fun a b => charListLe_total a.name b.name⟩

instance : IsTrans DirEnt entLe := ⟨fun a b c => charListLe_trans a.name b.name c.name⟩

/-- The sorted listing `scandir(dir, &e, NULL, alphasort)` hands to the scan
loop, modelled as a sort of the raw directory listing. -/
def sortEntries (es : List DirEnt) : List DirEnt := List.insertionSort entLe es

/-- The filename filter of conf.c line 352: `strcmp(&path[strlen(path) - 5],
".conf")`, i.e. the final five characters of the path are `".conf"` (on a
path shorter than five characters the C code reads out of bounds; the model
yields `false`). -/
def hasConfSuffix (s : List Char) : Bool := decide (((".conf")).toList <:+ s)

/-- The selection test of `parse_finit_d`'s loop body (conf.c lines 336-357):
stat must succeed, the entry must be neither executable nor a directory,
and the path must end in `.conf`. -/
def codeSelects (dir : List Char) (e : DirEnt) : Bool :=
  e.statOk && !(e.isExec || e.isDir) && hasConfSuffix (dir ++ ('/') :: e.name)

/-- The claim's selection predicate, following the spec's words: a stat-able
*regular* file, not executable, not a directory, whose *name* ends in
`.conf`.  Kept separate from `codeSelects` so the two can be compared. -/
def specSelects (e : DirEnt) : Bool :=
  e.statOk && e.isReg && !e.isExec && !e.isDir && hasConfSuffix e.name

/-- `parse_finit_d` (conf.c lines 325-365): `scandir` failure (`none`, e.g. a
missing directory) is non-fatal and loads nothing; otherwise every entry of
the sorted listing is stat'ed and the surviving `.conf` files are fed to
`parse_conf_dynamic` with their own mtime. -/
def parse_finit_d (fs : FS) (dir : List Char) (listing : Option (List DirEnt))
    (st : ConfSt) : ConfSt :=
  match listing with
  | none => st
  | some es =>
    (sortEntries es).foldl
      (fun st e =>
        if e.statOk = false then st
        else if e.isExec || e.isDir then st
        else if hasConfSuffix (dir ++ ('/') :: e.name) = false then st
        else parse_conf_dynamic fs st (dir ++ ('/') :: e.name) e.mtime)
      st

lemma hasConfSuffix_append (dir name : List Char) :
    hasConfSuffix (dir ++ ('/') :: name) = hasConfSuffix name := by
  unfold hasConfSuffix
  rw [decide_eq_decide]
  constructor
  · intro h
    have hsub : ('/') :: name <:+ dir ++ ('/') :: name := List.suffix_append dir _
    have hc5 : (((".conf")).toList).length = 5 := rfl
    by_cases hlen : 5 ≤ name.length
    · have h2 : ((".conf")).toList <:+ ('/') :: name := by
        refine List.suffix_of_suffix_length_le h hsub ?_
        rw [hc5, List.length_cons]
        omega
      rcases List.suffix_cons_iff.mp h2 with h3 | h3
      · injection h3 with h4 h5
        exact absurd h4 (by decide)
      · exact h3
    · push_neg at hlen
      have h2 : ('/') :: name <:+ ((".conf")).toList := by
        refine List.suffix_of_suffix_length_le hsub h ?_
        rw [hc5, List.length_cons]
        omega
      have hmem : ('/') ∈ ((".conf")).toList := h2.mem (List.mem_cons_self _ _)
      exact absurd hmem (by decide)
  · intro h
    exact h.trans ((List.suffix_cons ('/') name).trans (List.suffix_append dir _))

lemma foldl_filter_skip {α β : Type} (g : β → Bool) (fIf fDo : α → β → α)
    (h1 : ∀ s e, g e = false → fIf s e = s)
    (h2 : ∀ s e, g e = true → fIf s e = fDo s e) :
    ∀ (l : List β) (s : α), l.foldl fIf s = (l.filter g).foldl fDo s := by
  intro l
  induction l with
  | nil => intro s; rfl
  | cons e es ih =>
    intro s
    by_cases hg : g e = true
    · rw [List.foldl_cons, List.filter_cons_of_pos hg, List.foldl_cons, h2 s e hg, ih]
    · have hg2 : g e = false := by simpa using hg
      rw [List.foldl_cons, List.filter_cons_of_neg (by simp [hg2]), h1 s e hg2, ih]

/-- The concrete fragment directory of the spec's example. -/
def c7dir : List Char := ("/etc/finit.d").toList

/-- The spec's example listing, in scrambled (pre-sort) order, together with
the `.` and `..` entries `scandir` also returns: `a.conf` and `b.conf` are
plain files, `c.sh` is executable, `d.conf` is a subdirectory. -/
def c7listing : List DirEnt :=
  [⟨("d.conf").toList, true, true, false, false, 4⟩,
   ⟨("b.conf").toList, true, false, false, true, 2⟩,
   ⟨(".").toList, true, true, false, false, 0⟩,
   ⟨("c.sh").toList, true, false, true, true, 3⟩,
   ⟨("..").toList, true, true, false, false, 0⟩,
   ⟨("a.conf").toList, true, false, false, true, 1⟩]

/-- Contents of the example fragment files. -/
def c7fs : FS :=
  [((("/etc/finit.d/a.conf")).toList, [kwTask ++ (("/bin/a")).toList]),
   ((("/etc/finit.d/b.conf")).toList, [kwTask ++ (("/bin/b")).toList])]

/-- Claim C7 as amended: the directory scan visits entries in sorted lexical
filename order and loads as fragments exactly those entries that are
stat-able, not executable, not directories, and whose name ends in
`.conf` — the code never checks that the entry is a *regular* file.  The
first component factors the scan into sort-filter-load; the second states
the visiting order (sorted permutation of the listing); the third reduces
the code's path-suffix test to a name-suffix test; the fourth records that
a missing directory loads nothing; the last runs the spec's concrete
example: exactly `a.conf` then `b.conf` are loaded, in that order (their
two tasks, registered most-recent-first). -/
theorem C7_fragment_scan :
    (∀ (fs : FS) (dir : List Char) (es : List DirEnt) (st : ConfSt),
      parse_finit_d fs dir (some es) st =
        ((sortEntries es).filter (codeSelects dir)).foldl
          (fun st e => parse_conf_dynamic fs st (dir ++ ('/') :: e.name) e.mtime) st) ∧
    (∀ es : List DirEnt,
      List.Sorted entLe (sortEntries es) ∧ List.Perm (sortEntries es) es) ∧
    (∀ (dir : List Char) (e : DirEnt),
      codeSelects dir e = (e.statOk && !e.isExec && !e.isDir && hasConfSuffix e.name)) ∧
    (∀ (fs : FS) (dir : List Char) (st : ConfSt), parse_finit_d fs dir none st = st) ∧
    parse_finit_d c7fs c7dir (some c7listing) {} =
      {svcs := [⟨.task, ("/bin/b").toList, 2, none⟩, ⟨.task, ("/bin/a").toList, 1, none⟩]} := by
  refine ⟨?_, ?_, ?_, fun fs dir st => rfl, by decide⟩
  · intro fs dir es st
    unfold parse_finit_d
    refine foldl_filter_skip (codeSelects dir) _ _ ?_ ?_ (sortEntries es) st
    · intro s e hg
      by_cases hs : e.statOk = false
      · rw [if_pos hs]
      · rw [if_neg hs]
        by_cases he : (e.isExec || e.isDir) = true
        · rw [if_pos he]
        · rw [if_neg he]
          have hs2 : e.statOk = true := by simpa using hs
          have he2 : (e.isExec || e.isDir) = false := by simpa using he
          have hc : hasConfSuffix (dir ++ ('/') :: e.name) = false := by
            simpa [codeSelects, hs2, he2] using hg
          rw [if_pos hc]
    · intro s e hg
      simp only [codeSelects, Bool.and_eq_true, Bool.not_eq_true'] at hg
      obtain ⟨⟨hs, he⟩, hc⟩ := hg
      rw [if_neg (by simp [hs]), if_neg (by simp [he]), if_neg (by simp [hc])]
  · intro es
    exact ⟨List.sorted_insertionSort entLe es, List.perm_insertionSort entLe es⟩
  · intro dir e
    unfold codeSelects
    rw [hasConfSuffix_append]
    cases e.statOk <;> cases e.isExec <;> cases e.isDir <;> simp

/-- A stat-able FIFO (not a regular file, not executable, not a directory)
named `p.conf`. -/
def c7fifo : DirEnt := ⟨("p.conf").toList, true, false, false, false, 7⟩

/-- A file system in which that FIFO path has loadable content. -/
def c7fifoFS : FS := [((("/etc/finit.d/p.conf")).toList, [kwTask ++ (("/bin/p")).toList])]

/-- Claim C7, counterexample.  The claim says the scan loads exactly the
stat-able *regular* files (non-executable, non-directory, `.conf` suffix).
The code never consults the regular-file bit: a stat-able non-regular entry
(here a FIFO) with the right suffix is excluded by the claim's filter yet
is loaded by `parse_finit_d`. -/
theorem C7_counterexample :
    specSelects c7fifo = false ∧
    c7fifo.statOk = true ∧ c7fifo.isExec = false ∧ c7fifo.isDir = false ∧
    hasConfSuffix c7fifo.name = true ∧
    parse_finit_d c7fifoFS c7dir (some [c7fifo]) {} =
      {svcs := [⟨.task, ("/bin/p").toList, 7, none⟩]} := by
  refine ⟨by decide, rfl, rfl, rfl, by decide, by decide⟩

/-! ## Claim C1: `bootstrap_worker` polling (`src/src/finit.c`, lines 363-399) -/

/-- The re-scheduling loop of `bootstrap_worker` as a tick-indexed recursion.
The C worker keeps `static int cnt = 120`; on each invocation (tick) it
evaluates `cnt-- > 0 && !service_completed()` — the post-decrement tests the
old value, and `service_completed()` is consulted only while the countdown
is positive — and re-schedules itself only when that holds.  `cnt` is the
countdown still available on entry to the current tick, `tick` the 1-based
index of the current invocation, `completed t` the value
`service_completed()` would return on tick `t`; the result is the tick on
which the worker stops re-scheduling and schedules `finalize`. -/
def bootstrapWorkerGo (completed : Nat → Bool) : Nat → Nat → Nat
  | 0, tick => tick
  | cnt + 1, tick =>
    if completed tick then tick else bootstrapWorkerGo completed cnt (tick + 1)

/-- The tick on which `bootstrap_worker`, entered first on tick 1 with
`cnt = 120` (finit.c line 365), proceeds to schedule `finalize`. -/
def finalizeTick (completed : Nat → Bool) : Nat :=
  bootstrapWorkerGo completed 120 1

lemma bootstrapWorkerGo_le (completed : Nat → Bool) :
    ∀ (cnt tick : Nat), bootstrapWorkerGo completed cnt tick ≤ tick + cnt := by
  intro cnt
  induction cnt with
  | zero => intro tick; simp [bootstrapWorkerGo]
  | succ n ih =>
    intro tick
    unfold bootstrapWorkerGo
    split
    · omega
    · have := ih (tick + 1)
      omega

lemma bootstrapWorkerGo_ge (completed : Nat → Bool) :
    ∀ (cnt tick : Nat), tick ≤ bootstrapWorkerGo completed cnt tick := by
  intro cnt
  induction cnt with
  | zero => intro tick; simp [bootstrapWorkerGo]
  | succ n ih =>
    intro tick
    unfold bootstrapWorkerGo
    split
    · exact le_refl tick
    · have := ih (tick + 1)
      omega

lemma bootstrapWorkerGo_never (completed : Nat → Bool)
    (hnever : ∀ t, completed t = false) :
    ∀ (cnt tick : Nat), bootstrapWorkerGo completed cnt tick = tick + cnt := by
  intro cnt
  induction cnt with
  | zero => intro tick; simp [bootstrapWorkerGo]
  | succ n ih =>
    intro tick
    unfold bootstrapWorkerGo
    rw [hnever tick, if_neg (by decide)]
    rw [ih (tick + 1)]
    omega

lemma bootstrapWorkerGo_first (completed : Nat → Bool) :
    ∀ (cnt tick k : Nat), tick ≤ k → k < tick + cnt → completed k = true →
      (∀ j, j < k → tick ≤ j → completed j = false) →
      bootstrapWorkerGo completed cnt tick = k := by
  intro cnt
  induction cnt with
  | zero => intro tick k h1 h2; omega
  | succ n ih =>
    intro tick k h1 h2 hk hbefore
    unfold bootstrapWorkerGo
    by_cases htick : tick = k
    · subst htick
      rw [hk, if_pos rfl]
    · rw [hbefore tick (by omega) (le_refl tick), if_neg (by decide)]
      exact ih (tick + 1) k (by omega) (by omega) hk (fun j hj1 hj2 => hbefore j hj1 (by omega))

/-- Claim C1: the bootstrap polling step always terminates and never
re-schedules itself forever — the finalize transition happens on some tick
between 1 and 121.  If the completion predicate first becomes true on tick
`k` with `k` within the 120-iteration countdown, finalize is scheduled
exactly on tick `k` (not earlier); if the predicate never becomes true, it
is scheduled exactly on tick 121, the tick on which the countdown
(`cnt-- > 0`, having decremented 120 times) is exhausted. -/
theorem C1_bootstrap_polling (completed : Nat → Bool) :
    (∀ k, 1 ≤ k → k ≤ 120 → completed k = true →
      (∀ j, j < k → 1 ≤ j → completed j = false) →
      finalizeTick completed = k) ∧
    ((∀ t, completed t = false) → finalizeTick completed = 121) ∧
    1 ≤ finalizeTick completed ∧ finalizeTick completed ≤ 121 := by
  refine ⟨?_, ?_, ?_, ?_⟩
  · intro k h1 h2 hk hbefore
    exact bootstrapWorkerGo_first completed 120 1 k h1 (by omega) hk
      (fun j hj1 hj2 => hbefore j hj1 hj2)
  · intro hnever
    rw [finalizeTick, bootstrapWorkerGo_never completed hnever 120 1]
  · exact bootstrapWorkerGo_ge completed 120 1
  · exact bootstrapWorkerGo_le completed 120 1

/-- Closed-form witness for `C1_bootstrap_polling`: a predicate that first
becomes true on tick 5 finalizes on tick 5; a predicate that is never true
finalizes on tick 121. -/
theorem C1_bootstrap_polling_witness :
    finalizeTick (fun t => decide (5 ≤ t)) = 5 ∧
    finalizeTick (fun _ => false) = 121 := by
  refine ⟨(C1_bootstrap_polling (fun t => decide (5 ≤ t))).1 5 (by decide) (by decide)
      (by decide) (by decide),
    (C1_bootstrap_polling (fun _ => false)).2.1 (fun t => rfl)⟩

/-! ## Claim C2: the `bootstrap` flag and `finalize` (`src/src/finit.c`) -/

/-- Observable events of the bootstrap end-game: the calls `finalize` makes
(`svc_prune_bootstrap`, the two hooks, `run_interactive(FINIT_RC_LOCAL)`,
`enable_progress(0)`), a convergence step (`service_step_all`), and the
start of a respawn-class (TTY) service. -/
inductive Ev
  | pruneBootstrap | hookSvcUp | stepAny | rcLocal | hookSystemUp | progressOff | respawnStart
  deriving DecidableEq

/-- The sequencer-visible state: the global `bootstrap` flag (finit.c line
63) and a trace of events, each paired with the value the flag had when the
event occurred. -/
structure BootSt where
  bootstrap : Bool
  trace : List (Ev × Bool)
  deriving DecidableEq

/-- The primitive actions appearing in `finalize` (finit.c lines 316-342), in
source order: `svc_prune_bootstrap()`; `plugin_run_hooks(HOOK_SVC_UP)`;
`service_step_all(SVC_TYPE_ANY)`; `run_interactive(FINIT_RC_LOCAL, ...)`;
`plugin_run_hooks(HOOK_SYSTEM_UP)`; `service_step_all(SVC_TYPE_ANY)`;
`enable_progress(0)`; `bootstrap = 0`; `service_step_all(SVC_TYPE_RESPAWN)`. -/
inductive Act
  | prune | svcUpHook | stepAll | runRcLocal | systemUpHook | progressOff
  | clearBootstrap | stepRespawn
  deriving DecidableEq

/-- Record an event together with the current flag value. -/
def emit (s : BootSt) (e : Ev) : BootSt :=
  {s with trace := s.trace ++ [(e, s.bootstrap)]}

/-- Modelled from the spec: the external `service_step_all` (service.c is
not among the sources shown) starts respawn-class (TTY) services only once
the `bootstrap` flag is false — the spec: the final flag flip "is what
permits the respawn-class (TTY) services to be started". -/
def respawnEvents (b : Bool) : List (Ev × Bool) :=
  if b then [] else [(Ev.respawnStart, b)]

/-- Effect of one action on the sequencer state.  Only `clearBootstrap`
(`bootstrap = 0;`, finit.c line 340) writes the flag; stepping actions may
additionally start respawn services per `respawnEvents`. -/
def execAct (s : BootSt) : Act → BootSt
  | .prune => emit s .pruneBootstrap
  | .svcUpHook => emit s .hookSvcUp
  | .stepAll =>
    {s with trace := s.trace ++ [(Ev.stepAny, s.bootstrap)] ++ respawnEvents s.bootstrap}
  | .runRcLocal => emit s .rcLocal
  | .systemUpHook => emit s .hookSystemUp
  | .progressOff => emit s .progressOff
  | .clearBootstrap => {s with bootstrap := false}
  | .stepRespawn => {s with trace := s.trace ++ respawnEvents s.bootstrap}

/-- Run a sequence of actions. -/
def runActs (s : BootSt) (acts : List Act) : BootSt := acts.foldl execAct s

/-- The actions of `finalize` before the flag flip (finit.c lines 318-337);
`rcLocalRuns` is whether `/etc/rc.local` is executable and rescue mode is
off (line 328). -/
def finalizePre (rcLocalRuns : Bool) : List Act :=
  [.prune, .svcUpHook, .stepAll] ++ (if rcLocalRuns then [.runRcLocal] else []) ++
    [.systemUpHook, .stepAll, .progressOff]

/-- All of `finalize` (finit.c lines 316-342): the pre-flip work, then
`bootstrap = 0;` and the respawn step — the flag flip is the second-to-last
action and the last write to any sequencer state except the trace. -/
def finalizeActs (rcLocalRuns : Bool) : List Act :=
  finalizePre rcLocalRuns ++ [.clearBootstrap, .stepRespawn]

/-- `int bootstrap = 1;` (finit.c line 63): the flag at process start. -/
def bootstrapInitFlag : Bool := true

lemma execAct_bootstrap_of_ne (s : BootSt) (a : Act) (h : a ≠ Act.clearBootstrap) :
    (execAct s a).bootstrap = s.bootstrap := by
  cases a <;> first | rfl | exact absurd rfl h

lemma runActs_bootstrap_of_not_mem :
    ∀ (acts : List Act) (s : BootSt), Act.clearBootstrap ∉ acts →
      (runActs s acts).bootstrap = s.bootstrap := by
  intro acts
  induction acts with
  | nil => intro s _; rfl
  | cons a rest ih =>
    intro s h
    rw [runActs, List.foldl_cons]
    have ha : a ≠ Act.clearBootstrap := fun hc => h (hc ▸ List.mem_cons_self a rest)
    rw [show List.foldl execAct (execAct s a) rest = runActs (execAct s a) rest from rfl,
      ih (execAct s a) (fun hc => h (List.mem_cons_of_mem a hc)),
      execAct_bootstrap_of_ne s a ha]

lemma runActs_append (s : BootSt) (l1 l2 : List Act) :
    runActs s (l1 ++ l2) = runActs (runActs s l1) l2 := by
  simp [runActs, List.foldl_append]

lemma execAct_respawn_inv (s : BootSt) (a : Act)
    (h : ∀ p ∈ s.trace, p.1 = Ev.respawnStart → p.2 = false) :
    ∀ p ∈ (execAct s a).trace, p.1 = Ev.respawnStart → p.2 = false := by
  have hresp : ∀ p ∈ respawnEvents s.bootstrap, p.1 = Ev.respawnStart → p.2 = false := by
    intro p hp
    unfold respawnEvents at hp
    cases hb : s.bootstrap <;> rw [hb] at hp <;> simp at hp
    subst hp
    intro _
    rfl
  have hemit : ∀ (e : Ev), e ≠ Ev.respawnStart →
      ∀ p ∈ (emit s e).trace, p.1 = Ev.respawnStart → p.2 = false := by
    intro e he p hp
    unfold emit at hp
    rcases List.mem_append.mp hp with hmem | hmem
    · exact h p hmem
    · rcases List.mem_singleton.mp hmem with rfl
      intro hev
      exact absurd hev he
  cases a with
  | prune => exact hemit Ev.pruneBootstrap (by decide)
  | svcUpHook => exact hemit Ev.hookSvcUp (by decide)
  | runRcLocal => exact hemit Ev.rcLocal (by decide)
  | systemUpHook => exact hemit Ev.hookSystemUp (by decide)
  | progressOff => exact hemit Ev.progressOff (by decide)
  | clearBootstrap => exact h
  | stepRespawn =>
    intro p hp
    rcases List.mem_append.mp hp with hmem | hmem
    · exact h p hmem
    · exact hresp p hmem
  | stepAll =>
    intro p hp
    rcases List.mem_append.mp hp with hmem | hmem
    · rcases List.mem_append.mp hmem with hmem2 | hmem2
      · exact h p hmem2
      · rcases List.mem_singleton.mp hmem2 with rfl
        intro hev
        exact Ev.noConfusion hev
    · exact hresp p hmem

lemma runActs_respawn_inv :
    ∀ (acts : List Act) (s : BootSt),
      (∀ p ∈ s.trace, p.1 = Ev.respawnStart → p.2 = false) →
      ∀ p ∈ (runActs s acts).trace, p.1 = Ev.respawnStart → p.2 = false := by
  intro acts
  induction acts with
  | nil => intro s h; exact h
  | cons a rest ih =>
    intro s h
    rw [runActs, List.foldl_cons]
    exact ih (execAct s a) (execAct_respawn_inv s a h)

/-- Claim C2: the `bootstrap` flag is true at process start; only the
`clearBootstrap` action (`bootstrap = 0;`) ever changes it, and no action
ever sets it back to true, so it flips to false exactly once — inside
`finalize`, after the bootstrap-only prune, the services-up and system-up
hooks and the convergence steps (all of `finalizePre`) have run, with only
the respawn step after it; and no respawn-class (TTY) service start is
observable while the flag is still true (every `respawnStart` in any run
from a clean trace carries flag value false).  The final conjunct computes
the `finalize` run concretely: every pre-flip event occurs with the flag
true and the only respawn start occurs after the flip. -/
theorem C2_bootstrap_flag :
    bootstrapInitFlag = true ∧
    (∀ (acts : List Act) (s : BootSt), Act.clearBootstrap ∉ acts →
      (runActs s acts).bootstrap = s.bootstrap) ∧
    (∀ (s : BootSt) (a : Act), (execAct s a).bootstrap = true → s.bootstrap = true) ∧
    (∀ (rc : Bool) (s : BootSt), s.bootstrap = true →
      finalizeActs rc = finalizePre rc ++ [Act.clearBootstrap, Act.stepRespawn] ∧
      Act.clearBootstrap ∉ finalizePre rc ∧
      (runActs s (finalizePre rc)).bootstrap = true ∧
      (runActs s (finalizeActs rc)).bootstrap = false) ∧
    (∀ (acts : List Act) (b : Bool) (p : Ev × Bool),
      p ∈ (runActs ⟨b, []⟩ acts).trace → p.1 = Ev.respawnStart → p.2 = false) ∧
    runActs ⟨true, []⟩ (finalizeActs true) =
      ⟨false, [(Ev.pruneBootstrap, true), (Ev.hookSvcUp, true), (Ev.stepAny, true),
        (Ev.rcLocal, true), (Ev.hookSystemUp, true), (Ev.stepAny, true),
        (Ev.progressOff, true), (Ev.respawnStart, false)]⟩ := by
  refine ⟨rfl, runActs_bootstrap_of_not_mem, ?_, ?_, ?_, by decide⟩
  · intro s a h
    by_cases ha : a = Act.clearBootstrap
    · subst ha
      simp [execAct] at h
    · rw [execAct_bootstrap_of_ne s a ha] at h
      exact h
  · intro rc s hs
    refine ⟨rfl, by cases rc <;> decide, ?_, ?_⟩
    · rw [runActs_bootstrap_of_not_mem _ s (by cases rc <;> decide), hs]
    · have hsplit : runActs s (finalizeActs rc) =
          runActs (runActs s (finalizePre rc)) [Act.clearBootstrap, Act.stepRespawn] := by
        rw [finalizeActs, runActs_append]
      rw [hsplit]
      show (execAct (execAct _ Act.clearBootstrap) Act.stepRespawn).bootstrap = false
      rw [execAct_bootstrap_of_ne _ _ (by decide)]
      rfl
  · intro acts b p hp
    exact runActs_respawn_inv acts ⟨b, []⟩ (fun q hq => absurd hq (List.not_mem_nil q)) p hp

/-- Closed-form witness for `C2_bootstrap_flag`: its hypothesis-bearing
components applied at concrete runs of `finalize` from the clean boot
state. -/
theorem C2_bootstrap_flag_witness :
    (runActs ⟨true, []⟩ [Act.prune]).bootstrap = true ∧
    (⟨true, []⟩ : BootSt).bootstrap = true ∧
    (runActs ⟨true, []⟩ (finalizePre true)).bootstrap = true ∧
    (runActs ⟨true, []⟩ (finalizeActs true)).bootstrap = false ∧
    ((Ev.respawnStart, false) : Ev × Bool).2 = false := by
  refine ⟨C2_bootstrap_flag.2.1 [Act.prune] ⟨true, []⟩ (by decide),
    C2_bootstrap_flag.2.2.1 ⟨true, []⟩ Act.prune (by decide),
    (C2_bootstrap_flag.2.2.2.1 true ⟨true, []⟩ rfl).2.2.1,
    (C2_bootstrap_flag.2.2.2.1 true ⟨true, []⟩ rfl).2.2.2,
    C2_bootstrap_flag.2.2.2.2.1 (finalizeActs true) true (Ev.respawnStart, false)
      (by decide) rfl⟩
